import Mathlib

/-!
Shallow embedding of the NewsQuest riddle game (a React/TypeScript app) and
proofs about its history store, session state machine and game screen.

Sources embedded:
- `src/types.ts` : the data model (`RiddleData`, `HistoryItem`, `GameState`,
  `GameAction`).
- `src/unnamed/part_000` (geminiService) : `generateRiddleFromTopic`
  (text-absence check, JSON parse, unchecked cast, topic/difficulty stamping).
- `src/unnamed/part_001` (storageService) : `getHistory`, `saveToHistory`
  (question dedup, unshift, truncation to 12, quota-eviction retry loop).
- `src/App.tsx` : the reducer `dispatch`, the async pipeline
  `handleStartGame`, `handleGameComplete` / `updateStreak`, and the
  streak-loading effect (`parseInt` on the stored string).
- `src/components/GameScreen.tsx` : `handleSelect`, `revealHint` and the
  hint buttons' disabled condition.

External effects are modelled as explicit inputs: the outcome of a remote
generation call is a constructor of `GenPayload` / an `Except` value, the
outcome of each `localStorage.setItem` attempt is a boolean function of the
list being persisted, and `Date.now()` / `Math.random()` are passed in as
the `id`/`timestamp` parameters they produce.
-/

namespace NewsQuest

/-! ## Data model (src/types.ts) -/

/-- `RiddleData` from src/types.ts.  `answerIndex` is a JS number used as an
array index; it is modelled as `Int` (it may be negative or out of range,
nothing in the code validates it). -/
structure RiddleData where
  image_prompt : String
  riddle_question : String
  choices : List String
  answerIndex : Int
  hints : List String
  fun_fact : String
  news_topic : Option String
  difficulty : Option String
deriving DecidableEq

/-- `HistoryItem` from src/types.ts.  `answer` is `Option String` because
`saveToHistory` builds it by unchecked indexing (`choices[answerIndex]`),
which in JS yields `undefined` when out of range. -/
structure HistoryItem where
  id : String
  timestamp : Nat
  topic : String
  question : String
  answer : Option String
  fun_fact : String
  image_url : String
  difficulty : Option String
deriving DecidableEq

inductive Difficulty
  | easy
  | medium
  | hard
deriving DecidableEq

/-- The string value of a difficulty literal. -/
def Difficulty.str : Difficulty → String
  | .easy => "easy"
  | .medium => "medium"
  | .hard => "hard"

/-! ## storageService (src/unnamed/part_001) -/

/-- `MAX_ITEMS` constant of storageService. -/
def MAX_ITEMS : Nat := 12

/-- JS array indexing `l[i]` for a possibly out-of-range or negative index:
`undefined` (here `none`) outside `[0, l.length)`. -/
def jsIndex (l : List String) (i : Int) : Option String :=
  if i < 0 then none else l.get? i.toNat

/-- The `newItem` object literal built at the top of
`storageService.saveToHistory`.  `id` and `timestamp` come from `Date.now()`
and `Math.random()` and are passed in; `topic` uses the JS truthiness
fallback `riddle.news_topic || "Mystery Topic"` (so the empty string also
falls back); `answer` is the unchecked lookup `riddle.choices[riddle.answerIndex]`;
no `difficulty` field is set. -/
def newItem (idv : String) (ts : Nat) (riddle : RiddleData) (imageUrl : String) : HistoryItem :=
  { id := idv
    timestamp := ts
    topic := match riddle.news_topic with
      | none => "Mystery Topic"
      | some t => if t = "" then "Mystery Topic" else t
    question := riddle.riddle_question
    answer := jsIndex riddle.choices riddle.answerIndex
    fun_fact := riddle.fun_fact
    image_url := imageUrl
    difficulty := none }

/-- The `while (history.length > 0) { try setItem ... catch ... }` loop of
`saveToHistory`, with the outcome of each `localStorage.setItem` attempt
modelled by `ok`.  On success the current list is returned; on failure the
oldest (last) entry is popped and the write retried, unless only one entry
remains, in which case the loop breaks and the in-memory list is returned.
The fuel argument (always instantiated with the list length, which strictly
decreases at each retry) keeps the recursion structural. -/
def persistGo (ok : List HistoryItem → Bool) : Nat → List HistoryItem → List HistoryItem
  | 0, h => h
  | Nat.succ n, h =>
    if h.length = 0 then h
    else if ok h then h
    else if 1 < h.length then persistGo ok n h.dropLast
    else h

/-- The persistence loop of `saveToHistory`, entered with fuel equal to the
list length. -/
def persistLoop (ok : List HistoryItem → Bool) (h : List HistoryItem) : List HistoryItem :=
  persistGo ok h.length h

/-- `storageService.saveToHistory`: build the new entry; if an entry with the
same `question` already exists return the list unchanged; otherwise
`unshift` the new entry, `slice(0, MAX_ITEMS)`, then run the persistence
retry loop. -/
def saveToHistory (ok : List HistoryItem → Bool) (idv : String) (ts : Nat)
    (riddle : RiddleData) (imageUrl : String) (history : List HistoryItem) : List HistoryItem :=
  let ni := newItem idv ts riddle imageUrl
  if history.any (fun h => h.question == ni.question) then history
  else persistLoop ok ((ni :: history).take MAX_ITEMS)

/-- A persistence substrate whose writes always succeed. -/
def alwaysOk : List HistoryItem → Bool := fun _ => true

/-- A persistence substrate that rejects a write until at most `k` entries
remain (the quota simulation of the spec's eviction property). -/
def quotaOk (k : Nat) : List HistoryItem → Bool := fun l => decide (l.length ≤ k)

/-- The stored value under the history key, as `getHistory` observes it:
nothing stored, a stored string `JSON.parse` throws on, or a stored string
parsing to a list of items. -/
inductive StoredHistory
  | absent
  | corrupt (raw : String)
  | valid (items : List HistoryItem)
deriving DecidableEq

/-- `storageService.getHistory`: `[]` when nothing is stored, `[]` (via the
catch block) when the stored string is unparseable, otherwise the parsed
list. -/
def getHistory : StoredHistory → List HistoryItem
  | .absent => []
  | .corrupt _ => []
  | .valid items => items

/-- One `saveToHistory` call's inputs: the generated id, the timestamp, the
riddle and the image URL. -/
structure RecCall where
  idv : String
  ts : Nat
  riddle : RiddleData
  imageUrl : String
deriving DecidableEq

/-- A sequence of `saveToHistory` calls against an always-succeeding
substrate, starting from the empty store. -/
def runRecords (ops : List RecCall) : List HistoryItem :=
  ops.foldl (fun h c => saveToHistory alwaysOk c.idv c.ts c.riddle c.imageUrl h) []

/-! ## geminiService (src/unnamed/part_000) -/

/-- What `generateRiddleFromTopic` observes of the remote response:
`response.text` missing (`noText`), text present but `JSON.parse` throws
(`badJson`), or text parsing to a value that the code casts — without any
validation — to `RiddleData` (`parsed`). -/
inductive GenPayload
  | noText
  | badJson
  | parsed (d : RiddleData)
deriving DecidableEq

/-- The stamping step of `generateRiddleFromTopic`:
`data.news_topic = topic; data.difficulty = difficulty`. -/
def stampRiddle (topic : String) (df : Difficulty) (r : RiddleData) : RiddleData :=
  { r with news_topic := some topic, difficulty := some df.str }

/-- `generateRiddleFromTopic`: throws when `response.text` is absent, lets
`JSON.parse` throw on unparseable text, and otherwise returns the parsed
value stamped with `topic` and `difficulty` — the `as RiddleData` cast
performing no schema check.  Both failure paths are re-thrown by the `catch`
block as the single message `"Failed to generate riddle logic."`. -/
def generateRiddleFromTopic (topic : String) (df : Difficulty) (p : GenPayload) :
    Except String RiddleData :=
  match p with
  | .noText => .error "Failed to generate riddle logic."
  | .badJson => .error "Failed to generate riddle logic."
  | .parsed d => .ok (stampRiddle topic df d)

/-- Modelled from the spec: the spec's notion of a conforming, valid
`RiddleRecord` — exactly 4 choices and an integer `answerIndex` with
`0 ≤ answerIndex < len(choices)`.  The source declares no such check (the
declared response schema constrains `choices` only to be a string array and
`answerIndex` only to be an integer); this predicate exists to compare the
code's behaviour against the spec's words. -/
def riddleConformsSpec (r : RiddleData) : Prop :=
  r.choices.length = 4 ∧ 0 ≤ r.answerIndex ∧ r.answerIndex < (r.choices.length : Int)

instance (r : RiddleData) : Decidable (riddleConformsSpec r) := by
  unfold riddleConformsSpec
  infer_instance

/-! ## App session state machine (src/App.tsx) -/

/-- The `status` tag of `GameState` in src/types.ts. -/
inductive Status
  | idle
  | searching
  | generatingRiddle
  | generatingImage
  | playing
  | solved
  | failed
  | error
  | history
deriving DecidableEq

/-- `GameState` from src/types.ts (the reducer's state). -/
structure GameState where
  status : Status
  riddle : Option RiddleData
  imageUrl : Option String
  selectedAnswer : Option Int
  hintsRevealed : Nat
  error : Option String
  score : Nat
deriving DecidableEq

/-- `GameActionType` with each action's payload (src/types.ts).
`startGenImage`, `answerSelected` and `revealHintAction` are declared in the
enum but have no case in the reducer's switch, so they leave the state
unchanged. -/
inductive GameAction
  | startSearch
  | startGenRiddle
  | startGenImage
  | riddleReady (r : RiddleData)
  | imageReady (url : String)
  | answerSelected
  | revealHintAction
  | reset
  | errorAct (msg : String)
  | openHistory
  | closeHistory
deriving DecidableEq

/-- The full App-level state the claims touch: the reducer state, the
`customTopic` input, the `streak` counter and the history list (the
in-memory copy and the persisted copy move together in every code path, so
one field models both). -/
structure AppState where
  game : GameState
  customTopic : String
  streak : Nat
  history : List HistoryItem
deriving DecidableEq

/-- The `dispatch` switch of src/App.tsx.  Each handled case spreads the
previous state and overrides only the listed fields; `RESET` additionally
clears `customTopic`.  Unhandled action types fall through the switch and
change nothing. -/
def dispatchA : GameAction → AppState → AppState
  | .startSearch, s =>
    { s with game := { s.game with status := .searching, error := none } }
  | .startGenRiddle, s =>
    { s with game := { s.game with status := .generatingRiddle, error := none } }
  | .startGenImage, s => s
  | .riddleReady r, s =>
    { s with game := { s.game with status := .generatingImage, riddle := some r } }
  | .imageReady url, s =>
    { s with game := { s.game with status := .playing, imageUrl := some url } }
  | .answerSelected, s => s
  | .revealHintAction, s => s
  | .reset, s =>
    { s with
      game := { s.game with
        status := .idle, riddle := none, imageUrl := none,
        selectedAnswer := none, hintsRevealed := 0, error := none }
      customTopic := "" }
  | .errorAct msg, s =>
    { s with game := { s.game with status := .error, error := some msg } }
  | .openHistory, s =>
    { s with game := { s.game with status := .history } }
  | .closeHistory, s =>
    { s with game := { s.game with status := .idle } }

/-- The `catch` block's payload: `error.message || "An unexpected error
occurred."` (JS truthiness: an empty message also falls back). -/
def errMsg (m : String) : String :=
  if m = "" then "An unexpected error occurred." else m

/-- The tail of `handleStartGame` after the topic is known: dispatch
`START_GEN_RIDDLE`, await riddle generation, dispatch `RIDDLE_READY`, await
image generation, dispatch `IMAGE_READY`; any rejection is caught and
dispatched as `ERROR`. -/
def pipelineAfterTopic (riddleRes : Except String RiddleData)
    (imageRes : Except String String) (s : AppState) : AppState :=
  let s1 := dispatchA .startGenRiddle s
  match riddleRes with
  | .error m => dispatchA (.errorAct (errMsg m)) s1
  | .ok r =>
    let s2 := dispatchA (.riddleReady r) s1
    match imageRes with
    | .error m => dispatchA (.errorAct (errMsg m)) s2
    | .ok url => dispatchA (.imageReady url) s2

/-- `handleStartGame` of src/App.tsx, with the outcome of each awaited call
passed in.  In trending mode it first dispatches `START_SEARCH` and awaits
the topic fetch; in manual mode it returns without dispatching anything when
the trimmed `customTopic` is empty. -/
def handleStartGame (useTrending : Bool) (topicRes : Except String String)
    (riddleRes : Except String RiddleData) (imageRes : Except String String)
    (s : AppState) : AppState :=
  if useTrending then
    let s1 := dispatchA .startSearch s
    match topicRes with
    | .error m => dispatchA (.errorAct (errMsg m)) s1
    | .ok _ => pipelineAfterTopic riddleRes imageRes s1
  else
    if s.customTopic.trim = "" then s
    else pipelineAfterTopic riddleRes imageRes s

/-! ## Streak loading (src/App.tsx useEffect) -/

/-- A JS number as produced by `parseInt`: either an integer or `NaN`. -/
inductive JsNum
  | nan
  | int (n : Int)
deriving DecidableEq

/-- Numeric value of a list of decimal digit characters. -/
def digitsVal (ds : List Char) : Nat :=
  List.foldl (fun a c => 10 * a + (c.toNat - 48)) 0 ds

/-- `parseInt(s, 10)`: skip leading whitespace, accept an optional sign,
read the longest run of leading decimal digits; `NaN` when that run is
empty, otherwise the (signed) value of the digits read.  Trailing
non-digit characters are ignored. -/
def jsParseInt (s : String) : JsNum :=
  let cs := s.data.dropWhile Char.isWhitespace
  match cs with
  | '-' :: rest =>
    let ds := rest.takeWhile Char.isDigit
    if ds.isEmpty then .nan else .int (-(digitsVal ds : Int))
  | '+' :: rest =>
    let ds := rest.takeWhile Char.isDigit
    if ds.isEmpty then .nan else .int (digitsVal ds)
  | _ =>
    let ds := cs.takeWhile Char.isDigit
    if ds.isEmpty then .nan else .int (digitsVal ds)

/-- The characters of the stored string after the leading whitespace
`parseInt` skips. -/
def parseIntTail (s : String) : List Char :=
  s.data.dropWhile Char.isWhitespace

/-- Whether `parseInt` sees a leading minus sign. -/
def parseIntNeg (s : String) : Bool :=
  match parseIntTail s with
  | '-' :: _ => true
  | _ => false

/-- The leading digit run `parseInt` consumes: the longest run of decimal
digits after the skipped whitespace and the optional sign. -/
def parseIntDigits (s : String) : List Char :=
  match parseIntTail s with
  | '-' :: rest => rest.takeWhile Char.isDigit
  | '+' :: rest => rest.takeWhile Char.isDigit
  | cs => cs.takeWhile Char.isDigit

/-- The streak value after the mount effect of src/App.tsx: `streak` starts
at `0` (`useState(0)`); `if (savedStreak) setStreak(parseInt(savedStreak, 10))`
only fires when the stored string is present and non-empty (JS truthiness),
so an absent or empty stored value leaves `0` and anything else is whatever
`parseInt` returns — including `NaN`. -/
def loadStreak (saved : Option String) : JsNum :=
  match saved with
  | none => .int 0
  | some s => if s = "" then .int 0 else jsParseInt s

/-! ## GameScreen (src/components/GameScreen.tsx) -/

/-- The local component state of `GameScreen` the hint logic touches. -/
structure GSState where
  riddle : RiddleData
  selected : Option Int
  revealedHints : Nat
  showResult : Bool
deriving DecidableEq

/-- `revealHint`: increment `revealedHints` only while it is below
`riddle.hints.length`. -/
def revealHint (s : GSState) : GSState :=
  if s.revealedHints < s.riddle.hints.length then
    { s with revealedHints := s.revealedHints + 1 }
  else s

/-- Clicking the hint button at position `idx`: the button is rendered with
`disabled={revealedHints > idx || showResult}`, so the click only invokes
`revealHint` when that condition is false. -/
def clickHintButton (idx : Nat) (s : GSState) : GSState :=
  if idx < s.revealedHints ∨ s.showResult = true then s else revealHint s

/-- The initial `GameScreen` component state (`useState(null)`,
`useState(0)`, `useState(false)`). -/
def initGS (r : RiddleData) : GSState :=
  { riddle := r, selected := none, revealedHints := 0, showResult := false }

/-- The state of one playing round as the claims see it: the `GameScreen`
locals (`selected`, `showResult`, `isCorrect`) together with the App-level
`streak` and history store its callbacks touch.  `riddle` and `imageUrl`
are the props `GameScreen` was rendered with, which equal `gameState.riddle`
and `gameState.imageUrl` that `handleGameComplete` reads. -/
structure PlaySession where
  riddle : RiddleData
  imageUrl : String
  selected : Option Int
  showResult : Bool
  isCorrect : Bool
  streak : Nat
  history : List HistoryItem
deriving DecidableEq

/-- `handleSelect` of GameScreen composed with `handleGameComplete` /
`updateStreak` of App: ignored when `showResult` is already set; otherwise
records the selection, compares it with `answerIndex`, sets the
solved/failed result flags, updates the streak (`streak + 1` on a match,
`0` otherwise) and — only on a match, and only when `gameState.riddle` and
`gameState.imageUrl` are truthy — invokes `storageService.saveToHistory`
with the riddle and the image URL. -/
def handleSelect (ok : List HistoryItem → Bool) (idv : String) (ts : Nat)
    (i : Int) (s : PlaySession) : PlaySession :=
  if s.showResult then s
  else
    let correct := i == s.riddle.answerIndex
    let streak' := if correct then s.streak + 1 else 0
    let history' :=
      if correct && (s.imageUrl != "") then
        saveToHistory ok idv ts s.riddle s.imageUrl s.history
      else s.history
    { s with
      selected := some i, showResult := true, isCorrect := correct,
      streak := streak', history := history' }

/-! ## Concrete sample data used by witnesses and counterexamples -/

/-- A well-formed generated riddle. -/
def sampleRiddle : RiddleData :=
  { image_prompt := "a cat on a fence"
    riddle_question := "What walks on four legs?"
    choices := ["a dog", "a table", "a cat", "a fish"]
    answerIndex := 2
    hints := ["it purrs", "it has whiskers"]
    fun_fact := "Cats sleep most of the day."
    news_topic := some "cats"
    difficulty := some "medium" }

/-- A second riddle with a distinct question. -/
def otherRiddle : RiddleData :=
  { sampleRiddle with
    riddle_question := "What has keys but no locks?"
    answerIndex := 0
    news_topic := some "music" }

/-- A payload that is valid JSON but violates the spec's validity invariant:
2 choices and `answerIndex = 5`. -/
def badPayloadRiddle : RiddleData :=
  { image_prompt := "p"
    riddle_question := "q"
    choices := ["a", "b"]
    answerIndex := 5
    hints := []
    fun_fact := "f"
    news_topic := none
    difficulty := none }

/-- A riddle whose `answerIndex` is out of range for its `choices`. -/
def outOfRangeRiddle : RiddleData :=
  { sampleRiddle with answerIndex := 9 }

/-- The initial App state: idle, nothing generated, zero streak, empty
history. -/
def initialAppState : AppState :=
  { game :=
      { status := .idle, riddle := none, imageUrl := none,
        selectedAnswer := none, hintsRevealed := 0, error := none, score := 0 }
    customTopic := ""
    streak := 0
    history := [] }

/-- A playing round about to receive its first answer selection. -/
def samplePlay : PlaySession :=
  { riddle := sampleRiddle
    imageUrl := "data:image/png;base64,xyz"
    selected := none
    showResult := false
    isCorrect := false
    streak := 4
    history := [] }

/-! ### Persistence-loop lemmas -/

theorem persistGo_alwaysOk (n : Nat) (h : List HistoryItem) :
    persistGo alwaysOk n h = h := by
  cases n with
  | zero => rfl
  | succ n => simp [persistGo, alwaysOk]

theorem persistLoop_alwaysOk (h : List HistoryItem) : persistLoop alwaysOk h = h :=
  persistGo_alwaysOk _ _

theorem persistGo_eq_take (ok : List HistoryItem → Bool) :
    ∀ (n : Nat) (h : List HistoryItem), ∃ m, persistGo ok n h = h.take m := by
  intro n
  induction n with
  | zero =>
    intro h
    exact ⟨h.length, (List.take_length h).symm⟩
  | succ n ih =>
    intro h
    by_cases h0 : h.length = 0
    · refine ⟨h.length, ?_⟩
      rw [List.take_length]
      simp [persistGo, h0]
    · by_cases hok : ok h = true
      · refine ⟨h.length, ?_⟩
        rw [List.take_length]
        simp [persistGo, h0, hok]
      · by_cases h1 : 1 < h.length
        · obtain ⟨m, hm⟩ := ih h.dropLast
          refine ⟨min m (h.length - 1), ?_⟩
          have hstep : persistGo ok (n + 1) h = persistGo ok n h.dropLast := by
            simp [persistGo, h0, hok, h1]
          rw [hstep, hm, List.dropLast_eq_take, List.take_take]
        · refine ⟨h.length, ?_⟩
          rw [List.take_length]
          simp [persistGo, h0, hok, h1]

theorem persistLoop_eq_take (ok : List HistoryItem → Bool) (h : List HistoryItem) :
    ∃ m, persistLoop ok h = h.take m :=
  persistGo_eq_take ok h.length h

theorem persistGo_quota (k : Nat) :
    ∀ (n : Nat) (h : List HistoryItem), h.length = n →
      persistGo (quotaOk k) n h = h.take (max k 1) := by
  intro n
  induction n with
  | zero =>
    intro h hlen
    have : h = [] := List.eq_nil_of_length_eq_zero hlen
    subst this
    simp [persistGo]
  | succ n ih =>
    intro h hlen
    have h0 : ¬ h.length = 0 := by omega
    by_cases hok : h.length ≤ k
    · have hq : quotaOk k h = true := by simp [quotaOk, hok]
      have hstep : persistGo (quotaOk k) (n + 1) h = h := by
        simp [persistGo, h0, hq]
      rw [hstep, List.take_of_length_le (le_trans hok (le_max_left k 1))]
    · have hq : quotaOk k h = false := by simp [quotaOk, hok]
      by_cases h1 : 1 < h.length
      · have hstep : persistGo (quotaOk k) (n + 1) h = persistGo (quotaOk k) n h.dropLast := by
          simp [persistGo, h0, hq, h1]
        rw [hstep, ih h.dropLast (by rw [List.length_dropLast]; omega)]
        rw [List.dropLast_eq_take, List.take_take]
        have hmin : min (max k 1) (h.length - 1) = max k 1 := by omega
        rw [hmin]
      · have hstep : persistGo (quotaOk k) (n + 1) h = h := by
          simp [persistGo, h0, hq, h1]
        have hmax : max k 1 = 1 := by omega
        rw [hstep, hmax, List.take_of_length_le (by omega)]

theorem persistLoop_quota (k : Nat) (h : List HistoryItem) :
    persistLoop (quotaOk k) h = h.take (max k 1) :=
  persistGo_quota k h.length h rfl

/-! ### History-store invariant lemmas -/

/-- The question stored into a new entry is the riddle's question text. -/
theorem newItem_question (idv : String) (ts : Nat) (r : RiddleData) (u : String) :
    (newItem idv ts r u).question = r.riddle_question := rfl

theorem saveToHistory_length_le (ok : List HistoryItem → Bool) (idv : String) (ts : Nat)
    (r : RiddleData) (u : String) (h : List HistoryItem)
    (hle : h.length ≤ MAX_ITEMS) :
    (saveToHistory ok idv ts r u h).length ≤ MAX_ITEMS := by
  unfold saveToHistory
  by_cases hdup : h.any (fun e => e.question == (newItem idv ts r u).question) = true
  · simpa [hdup] using hle
  · simp only [hdup, if_false, Bool.false_eq_true]
    obtain ⟨m, hm⟩ := persistLoop_eq_take ok ((newItem idv ts r u :: h).take MAX_ITEMS)
    rw [hm]
    calc (((newItem idv ts r u :: h).take MAX_ITEMS).take m).length
        ≤ ((newItem idv ts r u :: h).take MAX_ITEMS).length :=
          List.Sublist.length_le (List.take_sublist _ _)
      _ ≤ MAX_ITEMS := by rw [List.length_take]; omega

theorem saveToHistory_nodup (ok : List HistoryItem → Bool) (idv : String) (ts : Nat)
    (r : RiddleData) (u : String) (h : List HistoryItem)
    (hnd : (h.map HistoryItem.question).Nodup) :
    ((saveToHistory ok idv ts r u h).map HistoryItem.question).Nodup := by
  unfold saveToHistory
  by_cases hdup : h.any (fun e => e.question == (newItem idv ts r u).question) = true
  · simpa [hdup] using hnd
  · simp only [hdup, if_false, Bool.false_eq_true]
    obtain ⟨m, hm⟩ := persistLoop_eq_take ok ((newItem idv ts r u :: h).take MAX_ITEMS)
    rw [hm]
    have hnotin : (newItem idv ts r u).question ∉ h.map HistoryItem.question := by
      intro hmem
      obtain ⟨e, hemem, heq⟩ := List.mem_map.mp hmem
      apply hdup
      refine List.any_eq_true.mpr ⟨e, hemem, ?_⟩
      simp [heq]
    have hcons : ((newItem idv ts r u :: h).map HistoryItem.question).Nodup := by
      rw [List.map_cons]
      exact List.nodup_cons.mpr ⟨hnotin, hnd⟩
    have hsub : List.Sublist (((newItem idv ts r u :: h).take MAX_ITEMS).take m)
        (newItem idv ts r u :: h) :=
      (List.take_sublist _ _).trans (List.take_sublist _ _)
    exact hcons.sublist (hsub.map HistoryItem.question)

theorem runRecords_inv (ops : List RecCall) :
    (runRecords ops).length ≤ MAX_ITEMS ∧
      ((runRecords ops).map HistoryItem.question).Nodup := by
  suffices hgen : ∀ (h : List HistoryItem),
      h.length ≤ MAX_ITEMS → (h.map HistoryItem.question).Nodup →
      (ops.foldl (fun h c => saveToHistory alwaysOk c.idv c.ts c.riddle c.imageUrl h) h).length ≤ MAX_ITEMS ∧
        ((ops.foldl (fun h c => saveToHistory alwaysOk c.idv c.ts c.riddle c.imageUrl h) h).map HistoryItem.question).Nodup by
    exact hgen [] (by simp [MAX_ITEMS]) (by simp)
  induction ops with
  | nil => intro h h1 h2; exact ⟨h1, h2⟩
  | cons c rest ih =>
    intro h h1 h2
    exact ih _ (saveToHistory_length_le _ _ _ _ _ _ h1) (saveToHistory_nodup _ _ _ _ _ _ h2)


/-! ### saveToHistory branch lemmas -/

/-- The dedup condition of `saveToHistory` compares against the riddle's
question text. -/
theorem saveToHistory_cond (idv : String) (ts : Nat) (r : RiddleData) (u : String)
    (h : List HistoryItem) :
    (h.any (fun e => e.question == (newItem idv ts r u).question)) =
      (h.any (fun e => e.question == r.riddle_question)) := by
  simp [newItem_question]

/-- A `saveToHistory` call whose question is already present returns the
list unchanged, whatever the persistence substrate does. -/
theorem saveToHistory_dup (ok : List HistoryItem → Bool) (idv : String) (ts : Nat)
    (r : RiddleData) (u : String) (h : List HistoryItem)
    (hdup : h.any (fun e => e.question == r.riddle_question) = true) :
    saveToHistory ok idv ts r u h = h := by
  simp only [saveToHistory]
  rw [saveToHistory_cond, hdup]
  rfl

/-- A `saveToHistory` call with a fresh question, against an
always-succeeding substrate, prepends the new entry and truncates to
`MAX_ITEMS`. -/
theorem saveToHistory_fresh (idv : String) (ts : Nat) (r : RiddleData) (u : String)
    (h : List HistoryItem)
    (hfresh : h.any (fun e => e.question == r.riddle_question) = false) :
    saveToHistory alwaysOk idv ts r u h = (newItem idv ts r u :: h).take MAX_ITEMS := by
  simp only [saveToHistory]
  rw [saveToHistory_cond, hfresh]
  simp only [Bool.false_eq_true, if_false]
  exact persistLoop_alwaysOk _

/-- Unfolding of the per-round `revealHint` count: `riddle` is never
changed. -/
theorem revealHint_riddle (s : GSState) : (revealHint s).riddle = s.riddle := by
  unfold revealHint
  split <;> rfl

theorem revealHint_iter_count (n : Nat) (s : GSState)
    (hle : s.revealedHints ≤ s.riddle.hints.length) :
    (revealHint^[n] s).revealedHints =
      min s.riddle.hints.length (s.revealedHints + n) := by
  induction n generalizing s with
  | zero =>
    simp only [Function.iterate_zero, id_eq]
    omega
  | succ n ih =>
    rw [Function.iterate_succ_apply]
    by_cases hlt : s.revealedHints < s.riddle.hints.length
    · have h1 : revealHint s = { s with revealedHints := s.revealedHints + 1 } := by
        simp [revealHint, hlt]
      rw [h1, ih { s with revealedHints := s.revealedHints + 1 } hlt]
      dsimp only
      omega
    · have h1 : revealHint s = s := by
        simp [revealHint, hlt]
      rw [h1, ih s hle]
      omega

/-- Characterization of `jsParseInt` over every input string: `NaN` exactly
when the leading digit run is empty, and otherwise the value of that run
with the sign of the optional leading minus. -/
theorem jsParseInt_eq (s : String) :
    jsParseInt s =
      if (parseIntDigits s).isEmpty then JsNum.nan
      else JsNum.int ((if parseIntNeg s then (-1 : Int) else 1) *
        (digitsVal (parseIntDigits s) : Int)) := by
  rcases hcs : s.data.dropWhile Char.isWhitespace with _ | ⟨c, rest⟩
  · simp [jsParseInt, parseIntDigits, parseIntNeg, parseIntTail, hcs]
  · by_cases hminus : c = '-'
    · subst hminus
      by_cases hemp : (rest.takeWhile Char.isDigit).isEmpty
      · simp [jsParseInt, parseIntDigits, parseIntNeg, parseIntTail, hcs, hemp]
      · simp [jsParseInt, parseIntDigits, parseIntNeg, parseIntTail, hcs, hemp, neg_one_mul]
    · by_cases hplus : c = '+'
      · subst hplus
        by_cases hemp : (rest.takeWhile Char.isDigit).isEmpty
        · simp [jsParseInt, parseIntDigits, parseIntNeg, parseIntTail, hcs, hemp]
        · simp [jsParseInt, parseIntDigits, parseIntNeg, parseIntTail, hcs, hemp]
      · by_cases hemp : ((c :: rest).takeWhile Char.isDigit).isEmpty
        · simp [jsParseInt, parseIntDigits, parseIntNeg, parseIntTail, hcs, hminus, hplus, hemp]
        · simp [jsParseInt, parseIntDigits, parseIntNeg, parseIntTail, hcs, hminus, hplus, hemp]

/-! ## Claim theorems -/

/-- C4: the reset intent, from any session state, returns to the idle phase
with `riddle`, `imageUrl`, `selectedAnswer`, `hintsRevealed` and the error
message all cleared, while the `streak` counter and the History Store
contents are unchanged. -/
theorem c4_reset_frame (s : AppState) :
    (dispatchA .reset s).game.status = Status.idle ∧
    (dispatchA .reset s).game.riddle = none ∧
    (dispatchA .reset s).game.imageUrl = none ∧
    (dispatchA .reset s).game.selectedAnswer = none ∧
    (dispatchA .reset s).game.hintsRevealed = 0 ∧
    (dispatchA .reset s).game.error = none ∧
    (dispatchA .reset s).streak = s.streak ∧
    (dispatchA .reset s).history = s.history :=
  ⟨rfl, rfl, rfl, rfl, rfl, rfl, rfl, rfl⟩

/-- C9: each `revealHint` call increments the revealed-hints count by at
most one; starting from a fresh round the count never exceeds
`hints.length`; calling `revealHint` `hints.length + 3` times leaves it
exactly `hints.length`; and a hint-button click is a no-op once an answer
has been selected (the button is disabled while `showResult` is set). -/
theorem c9_hint_cap (r : RiddleData) (s : GSState) (i : Nat) (n : Nat) :
    (revealHint s).revealedHints ≤ s.revealedHints + 1 ∧
    (revealHint^[n] (initGS r)).revealedHints ≤ r.hints.length ∧
    (revealHint^[r.hints.length + 3] (initGS r)).revealedHints = r.hints.length ∧
    clickHintButton i { s with showResult := true } = { s with showResult := true } := by
  refine ⟨?_, ?_, ?_, ?_⟩
  · unfold revealHint
    split
    · exact Nat.le_refl _
    · exact Nat.le_succ _
  · rw [revealHint_iter_count n (initGS r) (Nat.zero_le _)]
    simp [initGS]
  · rw [revealHint_iter_count _ (initGS r) (Nat.zero_le _)]
    simp [initGS]
  · simp [clickHintButton]

/-- C7 counterexample: no generation token exists in the code, so a
late-arriving `RIDDLE_READY` delivered after a reset IS applied: from the
idle state the session moves to `generating_image` and stores the stale
riddle, contradicting the claim that the session never leaves idle. -/
theorem c7_counterexample :
    (dispatchA (.riddleReady sampleRiddle) (dispatchA .reset initialAppState)).game.status ≠
      Status.idle ∧
    (dispatchA (.riddleReady sampleRiddle) (dispatchA .reset initialAppState)).game.status =
      Status.generatingImage ∧
    (dispatchA (.riddleReady sampleRiddle) (dispatchA .reset initialAppState)).game.riddle =
      some sampleRiddle :=
  ⟨by decide, rfl, rfl⟩

/-- C7 amended: the reducer checks no generation/session token, so a
late-arriving result event from an abandoned pipeline is applied
unconditionally: after a reset, a stale `RIDDLE_READY` moves the session
from idle to `generating_image` and stores the stale riddle, and a stale
`IMAGE_READY` moves it to `playing` and stores the stale image URL. -/
theorem c7_amended (s : AppState) (r : RiddleData) (u : String) :
    (dispatchA (.riddleReady r) (dispatchA .reset s)).game.status = Status.generatingImage ∧
    (dispatchA (.riddleReady r) (dispatchA .reset s)).game.riddle = some r ∧
    (dispatchA (.imageReady u) (dispatchA .reset s)).game.status = Status.playing ∧
    (dispatchA (.imageReady u) (dispatchA .reset s)).game.imageUrl = some u :=
  ⟨rfl, rfl, rfl, rfl⟩

/-- C6 counterexample: `generateRiddleFromTopic` succeeds on a payload that
parses as JSON but violates the spec's validity invariant (2 choices,
`answerIndex = 5`): no schema-conformance check is performed, so "fails iff
the payload is absent or does not conform" is false. -/
theorem c6_counterexample :
    generateRiddleFromTopic "t" Difficulty.medium (GenPayload.parsed badPayloadRiddle) =
      Except.ok (stampRiddle "t" Difficulty.medium badPayloadRiddle) ∧
    ¬ riddleConformsSpec badPayloadRiddle ∧
    ¬ riddleConformsSpec (stampRiddle "t" Difficulty.medium badPayloadRiddle) :=
  ⟨rfl, by decide, by decide⟩

/-- C6 amended: `generateRiddleFromTopic` fails (with the single re-thrown
message) iff the payload is absent or is not parseable JSON; no
schema-conformance validation (choice count, `answerIndex` bounds) is
performed — every parsed payload is returned as-is, merely stamped with the
requested topic and difficulty. -/
theorem c6_amended (topic : String) (df : Difficulty) (d : RiddleData) :
    generateRiddleFromTopic topic df .noText =
      .error "Failed to generate riddle logic." ∧
    generateRiddleFromTopic topic df .badJson =
      .error "Failed to generate riddle logic." ∧
    generateRiddleFromTopic topic df (.parsed d) =
      .ok { d with news_topic := some topic, difficulty := some df.str } ∧
    (generateRiddleFromTopic topic df (.parsed d)).isOk = true :=
  ⟨rfl, rfl, rfl, rfl⟩

/-- C8 counterexample: a stored streak string that does not parse as an
integer is loaded as `NaN` (what `parseInt("abc", 10)` returns), not as
zero. -/
theorem c8_counterexample :
    loadStreak (some "abc") = JsNum.nan ∧ JsNum.nan ≠ JsNum.int 0 :=
  ⟨by decide, by decide⟩

/-- C8 amended: a corrupt or absent history read yields the empty list (not
an error) and a valid read yields the stored list; an absent or empty
stored streak string leaves the streak at zero; and for every non-empty
stored string the loaded streak is exactly the `parseInt` result — `NaN`
(not zero) exactly when the string has no leading digit run after the
optional whitespace and sign, and otherwise the signed value of that
leading digit run. -/
theorem c8_amended (l : List HistoryItem) (raw : String) (s : String) :
    getHistory .absent = [] ∧
    getHistory (.corrupt raw) = [] ∧
    getHistory (.valid l) = l ∧
    loadStreak none = JsNum.int 0 ∧
    loadStreak (some "") = JsNum.int 0 ∧
    (s ≠ "" → loadStreak (some s) = jsParseInt s) ∧
    (jsParseInt s = JsNum.nan ↔ parseIntDigits s = []) ∧
    (parseIntDigits s ≠ [] →
      jsParseInt s = JsNum.int ((if parseIntNeg s then (-1 : Int) else 1) *
        (digitsVal (parseIntDigits s) : Int))) := by
  refine ⟨rfl, rfl, rfl, rfl, by decide, ?_, ?_, ?_⟩
  · intro hs
    simp [loadStreak, hs]
  · rw [jsParseInt_eq s]
    by_cases hemp : (parseIntDigits s).isEmpty
    · simp [hemp, List.isEmpty_iff.mp hemp]
    · have hne : parseIntDigits s ≠ [] := by
        intro h0
        apply hemp
        rw [h0]
        rfl
      simp [hemp, hne]
  · intro hne
    have hemp : (parseIntDigits s).isEmpty = false :=
      Bool.eq_false_iff.mpr (fun h => hne (List.isEmpty_iff.mp h))
    rw [jsParseInt_eq s, hemp]
    simp

/-- C8 witness: the universal clauses of the amended claim evaluated at
concrete stored strings — a signed numeric string with junk after the
digits, a non-numeric string, and a zero-padded numeric string. -/
theorem c8_witness :
    loadStreak (some " -42x") = JsNum.int (-42) ∧
    jsParseInt "abc" = JsNum.nan ∧
    loadStreak (some "007") = JsNum.int 7 := by
  have h1 := c8_amended [] "r" " -42x"
  have h2 := c8_amended [] "r" "abc"
  have h3 := c8_amended [] "r" "007"
  refine ⟨?_, ?_, ?_⟩
  · rw [h1.2.2.2.2.2.1 (by decide), h1.2.2.2.2.2.2.2 (by decide)]
    decide
  · exact h2.2.2.2.2.2.2.1.mpr (by decide)
  · rw [h3.2.2.2.2.2.1 (by decide), h3.2.2.2.2.2.2.2 (by decide)]
    decide

/-- C5 counterexample: a pipeline where riddle generation succeeds and image
generation fails ends in the error phase with the message stored, but the
riddle committed by `RIDDLE_READY` is retained in the session state — the
`ERROR` case spreads the previous state — contradicting "no partial state
from the aborted pipeline is retained". -/
theorem c5_counterexample :
    (handleStartGame true (.ok "cats") (.ok sampleRiddle)
      (.error "Failed to generate the riddle image.") initialAppState).game.status =
        Status.error ∧
    (handleStartGame true (.ok "cats") (.ok sampleRiddle)
      (.error "Failed to generate the riddle image.") initialAppState).game.error =
        some "Failed to generate the riddle image." ∧
    (handleStartGame true (.ok "cats") (.ok sampleRiddle)
      (.error "Failed to generate the riddle image.") initialAppState).game.riddle =
        some sampleRiddle ∧
    (handleStartGame true (.ok "cats") (.ok sampleRiddle)
      (.error "Failed to generate the riddle image.") initialAppState).game.riddle ≠
        none := by
  refine ⟨rfl, by decide, rfl, by decide⟩

/-- C5 amended: every failure of an asynchronous pipeline call moves the
session to the error phase with the failure's message (or the default text
when the message is empty) stored for display; but the `ERROR` transition
spreads the previous state, so partial pipeline state is retained: after a
topic-fetch or riddle-generation failure the `riddle` field keeps its prior
value, and after an image-generation failure it keeps the riddle committed
by `RIDDLE_READY` (cleared only by the subsequent reset). -/
theorem c5_amended (s : AppState) (m : String) (r : RiddleData)
    (rr : Except String RiddleData) (ir : Except String String) (u : String) :
    ((handleStartGame true (.error m) rr ir s).game.status = Status.error ∧
     (handleStartGame true (.error m) rr ir s).game.error = some (errMsg m) ∧
     (handleStartGame true (.error m) rr ir s).game.riddle = s.game.riddle) ∧
    ((handleStartGame true (.ok u) (.error m) ir s).game.status = Status.error ∧
     (handleStartGame true (.ok u) (.error m) ir s).game.error = some (errMsg m) ∧
     (handleStartGame true (.ok u) (.error m) ir s).game.riddle = s.game.riddle) ∧
    ((handleStartGame true (.ok u) (.ok r) (.error m) s).game.status = Status.error ∧
     (handleStartGame true (.ok u) (.ok r) (.error m) s).game.error = some (errMsg m) ∧
     (handleStartGame true (.ok u) (.ok r) (.error m) s).game.riddle = some r) :=
  ⟨⟨rfl, rfl, rfl⟩, ⟨rfl, rfl, rfl⟩, ⟨rfl, rfl, rfl⟩⟩

/-- A `handleSelect` call on a round whose result is already shown is
ignored. -/
theorem handleSelect_done (ok : List HistoryItem → Bool) (idv : String) (ts : Nat)
    (i : Int) (t : PlaySession) (hdone : t.showResult = true) :
    handleSelect ok idv ts i t = t := by
  simp [handleSelect, hdone]

/-- C1: on a playing round, the first `selectAnswer(i)` records the selected
choice and shows the result; when `i` matches `answerIndex` the round is
solved (`isCorrect`), the streak is incremented by exactly one, and the
History Store `record` operation is invoked with the riddle and the image
URL; when `i` differs the round is failed, the streak is reset to 0, and the
history is untouched; and every further selection is ignored.  The
hypothesis `s.imageUrl ≠ ""` holds for every rendered round, since the
GameScreen is only mounted when `gameState.imageUrl` is truthy. -/
theorem c1_select_answer (ok : List HistoryItem → Bool) (idv : String) (ts : Nat)
    (i : Int) (s : PlaySession)
    (hfirst : s.showResult = false) (himg : s.imageUrl ≠ "") :
    (handleSelect ok idv ts i s).selected = some i ∧
    (handleSelect ok idv ts i s).showResult = true ∧
    (i = s.riddle.answerIndex →
      (handleSelect ok idv ts i s).isCorrect = true ∧
      (handleSelect ok idv ts i s).streak = s.streak + 1 ∧
      (handleSelect ok idv ts i s).history =
        saveToHistory ok idv ts s.riddle s.imageUrl s.history) ∧
    (i ≠ s.riddle.answerIndex →
      (handleSelect ok idv ts i s).isCorrect = false ∧
      (handleSelect ok idv ts i s).streak = 0 ∧
      (handleSelect ok idv ts i s).history = s.history) ∧
    (∀ (ok2 : List HistoryItem → Bool) (idv2 : String) (ts2 : Nat) (j : Int),
      handleSelect ok2 idv2 ts2 j (handleSelect ok idv ts i s) =
        handleSelect ok idv ts i s) := by
  refine ⟨?_, ?_, ?_, ?_, ?_⟩
  · simp [handleSelect, hfirst]
  · simp [handleSelect, hfirst]
  · intro heq
    have hbeq : (i == s.riddle.answerIndex) = true := beq_iff_eq.mpr heq
    have hb2 : (s.imageUrl != "") = true := bne_iff_ne.mpr himg
    refine ⟨?_, ?_, ?_⟩ <;> simp [handleSelect, hfirst, hbeq, hb2]
  · intro hne
    have hbeq : (i == s.riddle.answerIndex) = false := beq_eq_false_iff_ne.mpr hne
    refine ⟨?_, ?_, ?_⟩ <;> simp [handleSelect, hfirst, hbeq]
  · intro ok2 idv2 ts2 j
    exact handleSelect_done ok2 idv2 ts2 j _ (by simp [handleSelect, hfirst])

/-- C1 witness: on a concrete fresh round, selecting the correct choice
increments the streak by exactly one and marks the result shown. -/
theorem c1_witness :
    samplePlay.showResult = false ∧ samplePlay.imageUrl ≠ "" ∧
    (handleSelect alwaysOk "id1" 5 2 samplePlay).streak = samplePlay.streak + 1 ∧
    (handleSelect alwaysOk "id1" 5 2 samplePlay).showResult = true := by
  have h := c1_select_answer alwaysOk "id1" 5 2 samplePlay rfl (by decide)
  exact ⟨rfl, by decide, (h.2.2.1 rfl).2.1, h.2.1⟩

/-- C2: after any sequence of `record` calls from the empty store, the list
holds at most 12 entries and no two entries share a question; a `record`
call whose question is already present returns the list unchanged; a
`record` call with a fresh question prepends the new entry at the front and
truncates to the maximum size; and `record` is idempotent on question. -/
theorem c2_history_invariants (ops : List RecCall) (idv idv2 : String) (ts ts2 : Nat)
    (r : RiddleData) (u u2 : String) :
    (runRecords ops).length ≤ MAX_ITEMS ∧
    ((runRecords ops).map HistoryItem.question).Nodup ∧
    ((runRecords ops).any (fun e => e.question == r.riddle_question) = true →
      saveToHistory alwaysOk idv ts r u (runRecords ops) = runRecords ops) ∧
    ((runRecords ops).any (fun e => e.question == r.riddle_question) = false →
      saveToHistory alwaysOk idv ts r u (runRecords ops) =
        (newItem idv ts r u :: runRecords ops).take MAX_ITEMS) ∧
    saveToHistory alwaysOk idv2 ts2 r u2
        (saveToHistory alwaysOk idv ts r u (runRecords ops)) =
      saveToHistory alwaysOk idv ts r u (runRecords ops) := by
  obtain ⟨h1, h2⟩ := runRecords_inv ops
  refine ⟨h1, h2, ?_, ?_, ?_⟩
  · intro hdup
    exact saveToHistory_dup _ _ _ _ _ _ hdup
  · intro hfresh
    exact saveToHistory_fresh _ _ _ _ _ hfresh
  · by_cases hdup : (runRecords ops).any (fun e => e.question == r.riddle_question) = true
    · rw [saveToHistory_dup _ _ _ _ _ _ hdup, saveToHistory_dup _ _ _ _ _ _ hdup]
    · have hfresh := Bool.eq_false_iff.mpr hdup
      rw [saveToHistory_fresh _ _ _ _ _ hfresh]
      apply saveToHistory_dup
      have htake : (newItem idv ts r u :: runRecords ops).take MAX_ITEMS =
          newItem idv ts r u :: (runRecords ops).take 11 := rfl
      rw [htake]
      simp [newItem_question]

/-- C2 witness: recording the same riddle a second time (with a different
id, timestamp and image URL) leaves the store unchanged. -/
theorem c2_witness :
    saveToHistory alwaysOk "b" 1 sampleRiddle "u2"
        (runRecords [⟨"a", 0, sampleRiddle, "u"⟩]) =
      runRecords [⟨"a", 0, sampleRiddle, "u"⟩] := by
  have h := c2_history_invariants [⟨"a", 0, sampleRiddle, "u"⟩] "b" "c" 1 2 sampleRiddle "u2" "u3"
  exact h.2.2.1 (by decide)

/-- C3: when persistence is modelled as failing until only `k ≥ 1` entries
remain, a `record` call with a fresh question returns the prepended,
truncated list further evicted from the tail (oldest first) down to `k`
entries — so the returned in-memory list has at most `k` entries, and the
call returns normally instead of surfacing the storage failure. -/
theorem c3_eviction_under_quota (k : Nat) (hk : 1 ≤ k) (idv : String) (ts : Nat)
    (r : RiddleData) (u : String) (h : List HistoryItem)
    (hfresh : h.any (fun e => e.question == r.riddle_question) = false) :
    saveToHistory (quotaOk k) idv ts r u h =
      ((newItem idv ts r u :: h).take MAX_ITEMS).take k ∧
    (saveToHistory (quotaOk k) idv ts r u h).length ≤ k := by
  have heq : saveToHistory (quotaOk k) idv ts r u h =
      ((newItem idv ts r u :: h).take MAX_ITEMS).take (max k 1) := by
    simp only [saveToHistory]
    rw [saveToHistory_cond, hfresh]
    simp only [Bool.false_eq_true, if_false]
    exact persistLoop_quota _ _
  have hmax : max k 1 = k := by omega
  rw [heq, hmax]
  refine ⟨rfl, ?_⟩
  rw [List.length_take]
  omega

/-- C3 witness: with a quota admitting two entries and a fresh riddle, the
record call returns at most two entries. -/
theorem c3_witness :
    (saveToHistory (quotaOk 2) "i" 0 sampleRiddle "u" []).length ≤ 2 := by
  have h := c3_eviction_under_quota 2 (by decide) "i" 0 sampleRiddle "u" [] (by decide)
  exact h.2

/-- C10: `saveToHistory` builds the entry's `answer` by unchecked indexing:
within bounds it stores the text of the correct choice; out of bounds
(negative, or at least the number of choices) the entry is still created,
with an undefined (`none`) answer, instead of the call failing; and a
missing or empty `news_topic` is replaced by the placeholder
`"Mystery Topic"` while a non-empty one is kept. -/
theorem c10_unchecked_answer_topic (idv : String) (ts : Nat) (r : RiddleData)
    (u : String) (t : String) :
    (∀ (hlt : r.answerIndex.toNat < r.choices.length), 0 ≤ r.answerIndex →
      (newItem idv ts r u).answer =
        some (r.choices.get ⟨r.answerIndex.toNat, hlt⟩)) ∧
    (r.answerIndex < 0 → (newItem idv ts r u).answer = none) ∧
    (r.choices.length ≤ r.answerIndex.toNat → 0 ≤ r.answerIndex →
      (newItem idv ts r u).answer = none) ∧
    (r.news_topic = none → (newItem idv ts r u).topic = "Mystery Topic") ∧
    (r.news_topic = some "" → (newItem idv ts r u).topic = "Mystery Topic") ∧
    (r.news_topic = some t → t ≠ "" → (newItem idv ts r u).topic = t) := by
  refine ⟨?_, ?_, ?_, ?_, ?_, ?_⟩
  · intro hlt hge
    show jsIndex r.choices r.answerIndex = _
    unfold jsIndex
    rw [if_neg (by omega)]
    exact List.get?_eq_get hlt
  · intro hneg
    show jsIndex r.choices r.answerIndex = none
    unfold jsIndex
    rw [if_pos hneg]
  · intro hle hge
    show jsIndex r.choices r.answerIndex = none
    unfold jsIndex
    rw [if_neg (by omega)]
    exact List.get?_eq_none.mpr hle
  · intro hn
    simp [newItem, hn]
  · intro hn
    simp [newItem, hn]
  · intro hn hne
    simp [newItem, hn, hne]

/-- C10 witness: an in-range riddle stores its correct choice's text and its
topic, and an out-of-range riddle still yields an entry, with an undefined
answer. -/
theorem c10_witness :
    (newItem "i" 0 sampleRiddle "u").answer = some "a cat" ∧
    (newItem "i" 0 outOfRangeRiddle "u").answer = none ∧
    (newItem "i" 0 sampleRiddle "u").topic = "cats" := by
  have h1 := c10_unchecked_answer_topic "i" 0 sampleRiddle "u" "cats"
  have h2 := c10_unchecked_answer_topic "i" 0 outOfRangeRiddle "u" "x"
  refine ⟨?_, ?_, ?_⟩
  · have := h1.1 (by decide) (by decide)
    rw [this]
    rfl
  · exact h2.2.2.1 (by decide) (by decide)
  · exact h1.2.2.2.2.2 rfl (by decide)

end NewsQuest
